import Mathlib

/-!
Verification of the adaptive spatial search controller of the
Geolocation Ingestor Application.

The development shallowly embeds the Python modules
`pipelines/adaptive_search/spatial/tiles.py`,
`pipelines/adaptive_search/utils/checkpoint.py`,
`pipelines/adaptive_search/core/places.py` and
`src/adaptive_search/core/search.py` (class `AdaptiveSearch`).

Conventions used throughout:
- Python floats are embedded as exact rationals (`ℚ`).
- Python lists are embedded as Lean lists.  The high-density stack is a
  Python list used as a LIFO stack (`append` pushes at the end,
  `pop()` removes from the end); we represent it with the most recently
  pushed element at the HEAD of the Lean list, so push is `cons` and
  pop takes the head.  Pushing several elements in Python order conses
  them one after another (`pushAll`).
- Python sets of strings are embedded as `Finset String`.
- Logging and API-metric updates are I/O with no influence on control
  flow or results; they are dropped from the embedding.  Writing a CSV
  chunk is recorded in the ghost field `flushed`.
- The network is an oracle: the page-by-page outcomes of the HTTP
  requests made by `get_nearby_places` are a parameter, and in the
  deep-dive loop the whole query client is a parameter.
- The transcendental functions `math.sqrt`, `math.cos`, `math.radians`
  used by `calculate_search_radius` are kept abstract as a record of
  oracles, so every definition stays computable.
-/

namespace GeoIngest

/-! ## Data model -/

/-- A raw place record: the provider-assigned identifier plus an opaque
payload standing for the rest of the Python dict. -/
structure Place where
  place_id : String
  payload : String
deriving DecidableEq, Repr

/-- A tile `(center_lat, center_lng, side)` exactly as the Python code
passes it around as a 3-tuple of floats. -/
abbrev Tile := ℚ × ℚ × ℚ

/-- Embedding of `create_tile` from `spatial/tiles.py`. -/
def create_tile (lat lng size : ℚ) : Tile := (lat, lng, size)

/-- Embedding of `subdivide_tile` from `spatial/tiles.py`: quadrants in
the fixed source order SW, SE, NW, NE, each of side `size / 2`. -/
def subdivide_tile (tile : Tile) : List Tile :=
  let lat := tile.1
  let lng := tile.2.1
  let size := tile.2.2
  let new_size := size / 2
  let half_size := new_size / 2
  [ (lat - half_size, lng - half_size, new_size),
    (lat - half_size, lng + half_size, new_size),
    (lat + half_size, lng - half_size, new_size),
    (lat + half_size, lng + half_size, new_size) ]

/-- The side length of a tile. -/
def Tile.side (t : Tile) : ℚ := t.2.2

/-! ## Fixed-precision tile keys

`run_deep_dive` builds the processed-set key of a tile with the Python
f-string `f"\x7blat:.6f\x7d,\x7blng:.6f\x7d,\x7bsize:.6f\x7d"`.  The
`%.6f` conversion renders the value in sign-magnitude form with exactly
six fractional digits, rounding the magnitude to the nearest multiple
of `10^-6` (ties to even). -/

/-- Round a nonnegative rational to the nearest integer, ties to even
(the rounding used by `%.6f` formatting of the scaled magnitude). -/
def roundHalfEven (x : ℚ) : ℤ :=
  let f := ⌊x⌋
  let r := x - f
  if r < 1 / 2 then f
  else if 1 / 2 < r then f + 1
  else if f % 2 = 0 then f else f + 1

/-- Render a nonnegative integer below `10^6` as exactly six digits,
zero padded. -/
def sixDigits (m : ℤ) : String :=
  (toString (1000000 + m)).drop 1

/-- Embedding of the Python conversion `f"\x7bx:.6f\x7d"` on a
rational: sign of the value, integer part, a dot, and six fractional
digits of the rounded magnitude. -/
def formatFixed6 (x : ℚ) : String :=
  let n := roundHalfEven (|x| * 1000000)
  let sign := if x < 0 then "-" else ""
  sign ++ toString (n / 1000000) ++ "." ++ sixDigits (n % 1000000)

/-- Embedding of the tile-key construction in `run_deep_dive`
(`search.py` line 321). -/
def tile_key (lat lng size : ℚ) : String :=
  formatFixed6 lat ++ "," ++ formatFixed6 lng ++ "," ++ formatFixed6 size

/-! ## Search radius

`calculate_search_radius` in `spatial/tiles.py` takes the three
positional parameters `(lat, lng, size)`; `run_deep_dive`
(`search.py` line 346) invokes it as
`calculate_search_radius(lat, size)` with two positional arguments. -/

/-- The library functions `math.sqrt`, `math.cos`, `math.radians` kept
abstract, so the embedding stays computable and the theorems hold for
every interpretation of the transcendental functions. -/
structure PyMath where
  sqrt : ℚ → ℚ
  cos : ℚ → ℚ
  radians : ℚ → ℚ

/-- Embedding of `calculate_search_radius` from `spatial/tiles.py`:
half the tile diagonal `(size/2)·sqrt 2` in degrees, converted to
meters by the average of the meridian factor `111111` and the parallel
factor `111111·cos(radians lat)`. -/
def calculate_search_radius (M : PyMath) (lat lng size : ℚ) : ℚ :=
  let meters_per_degree_lat : ℚ := 111111
  let meters_per_degree_lng : ℚ := 111111 * M.cos (M.radians lat)
  let meters_per_degree_avg := (meters_per_degree_lat + meters_per_degree_lng) / 2
  let radius_degrees := (size / 2) * M.sqrt 2
  let radius_meters := radius_degrees * meters_per_degree_avg
  let _ := lng
  radius_meters

/-- Python call semantics for `calculate_search_radius`: applying the
three-parameter function to a list of positional arguments; any other
arity raises `TypeError`. -/
def apply_calculate_search_radius (M : PyMath) (args : List ℚ) : Except String ℚ :=
  match args with
  | [lat, lng, size] => Except.ok (calculate_search_radius M lat lng size)
  | _ => Except.error "TypeError"

/-- Embedding of the call site `search.py` line 346:
`adjusted_radius = calculate_search_radius(lat, size)` passes exactly
the two positional arguments `lat` and `size`. -/
def run_deep_dive_radius_call (M : PyMath) (lat size : ℚ) : Except String ℚ :=
  apply_calculate_search_radius M [lat, size]

/-! ## Controller state and helper methods of `AdaptiveSearch` -/

/-- The mutable attributes of an `AdaptiveSearch` object that the
algorithm reads or writes, plus the ghost field `flushed` recording the
successive CSV chunks written by `flush_chunk`. -/
structure SearchState where
  initial_tiles : List Tile
  high_density_stack : List Tile
  processed : Finset String
  seen_place_ids : Finset String
  new_places : ℕ
  deep_count : ℕ
  chunk_buffer : List Place
  flushed : List (List Place)

/-- The state of a freshly constructed `AdaptiveSearch` object
(`search.py` lines 100-107): empty sets, empty buffers, zero
counters. -/
def initial_search_state : SearchState :=
  { initial_tiles := []
    high_density_stack := []
    processed := ∅
    seen_place_ids := ∅
    new_places := 0
    deep_count := 0
    chunk_buffer := []
    flushed := [] }

/-- Embedding of `flush_chunk` from `utils/checkpoint.py`: an empty
buffer is not written; otherwise the buffer contents are appended to
the CSV (ghost field `flushed`) and the buffer is cleared. -/
def flush_chunk (st : SearchState) : SearchState :=
  if st.chunk_buffer = [] then st
  else { st with chunk_buffer := [], flushed := st.flushed ++ [st.chunk_buffer] }

/-- Embedding of `AdaptiveSearch.check_tile_density`
(`search.py` lines 122-138): push the tile onto the high-density stack
exactly when the query consumed 3 pages and returned 60 results. -/
def check_tile_density (pages : ℕ) (lat lng size : ℚ) (count : ℕ)
    (st : SearchState) : SearchState :=
  if pages = 3 ∧ count = 60 then
    { st with high_density_stack := (lat, lng, size) :: st.high_density_stack }
  else st

/-- Embedding of `AdaptiveSearch.add_unique_row_to_final_list`
(`search.py` lines 140-147): keep each record whose id is not yet in
`seen_place_ids`, adding the id to the ledger and counting it in
`new_places`. -/
def add_unique_row_to_final_list (st : SearchState) (places : List Place) : SearchState :=
  places.foldl
    (fun st p =>
      if p.place_id ∈ st.seen_place_ids then st
      else
        { st with
          chunk_buffer := st.chunk_buffer ++ [p],
          seen_place_ids := insert p.place_id st.seen_place_ids,
          new_places := st.new_places + 1 })
    st

/-- Embedding of `AdaptiveSearch.check_and_save_chunk_size`
(`search.py` lines 149-160): flush exactly when `new_places > 0` and
the buffer has reached `chunk_size`. -/
def check_and_save_chunk_size (chunk_size : ℕ) (st : SearchState) : SearchState :=
  if 0 < st.new_places ∧ chunk_size ≤ st.chunk_buffer.length then flush_chunk st
  else st

/-- One iteration of the initial-scan loop of `AdaptiveSearch.crawl_city`
(`search.py` lines 178-194) after the query returned
`(places, count, pages)` for the tile `(lat, lng, size)`: filter the
records through the ledger, flush if the threshold is reached, then
classify the tile's density. -/
def crawl_city_step (chunk_size : ℕ) (lat lng size : ℚ)
    (places : List Place) (count pages : ℕ) (st : SearchState) : SearchState :=
  let st1 := add_unique_row_to_final_list st places
  let st2 := check_and_save_chunk_size chunk_size st1
  check_tile_density pages lat lng size count st2

/-! ## The deep-dive loop -/

/-- The dedup loop inlined in `run_deep_dive`
(`search.py` lines 362-367); unlike `add_unique_row_to_final_list` it
does not touch the `new_places` counter. -/
def deep_dive_filter (st : SearchState) (places : List Place) : SearchState :=
  places.foldl
    (fun st p =>
      if p.place_id ∈ st.seen_place_ids then st
      else
        { st with
          seen_place_ids := insert p.place_id st.seen_place_ids,
          chunk_buffer := st.chunk_buffer ++ [p] })
    st

/-- Appending a list of tiles to the Python stack one `append` at a
time; in the head-is-top representation each append is a `cons`. -/
def pushAll (children : List Tile) (stack : List Tile) : List Tile :=
  children.foldl (fun s c => c :: s) stack

/-- The tail of the deep-dive loop body (`search.py` lines 356-403)
for a popped, not-yet-processed tile, after the query returned `res`:
count the dive, filter the records through the ledger, flush when the
buffer reached `chunk_size`, and push the four subdivision children
when the tile is saturated and its side is still above `min_step`.
Checkpoint writes and logging are I/O without influence on the loop
state and are dropped. -/
def process_tile (res : List Place × ℕ × ℕ) (min_step : ℚ) (chunk_size : ℕ)
    (tile : Tile) (st1 : SearchState) : SearchState :=
  let places := res.1
  let count := res.2.1
  let pages := res.2.2
  let st2 := { st1 with deep_count := st1.deep_count + 1 }
  let st3 := deep_dive_filter st2 places
  let st4 := if chunk_size ≤ st3.chunk_buffer.length then flush_chunk st3 else st3
  if min_step < tile.2.2 ∧ pages = 3 ∧ count = 60 then
    { st4 with
      high_density_stack := pushAll (subdivide_tile tile) st4.high_density_stack }
  else st4

/-- One iteration of the deep-dive loop of `AdaptiveSearch.run_deep_dive`
(`search.py` lines 314-403), returning `none` when the loop guard fails
(stack empty or dive ceiling reached): pop a tile, skip it when its key
is already processed, otherwise mark it processed and hand it to
`process_tile`.  `R` abstracts the radius computation at the call site
(`calculate_search_radius(lat, size)`) and `q` the query client
`get_nearby_places`. -/
def deep_dive_step (R : ℚ → ℚ → ℚ) (q : ℚ → ℚ → ℚ → List Place × ℕ × ℕ)
    (min_step : ℚ) (max_deep_dives chunk_size : ℕ)
    (st : SearchState) : Option SearchState :=
  match st.high_density_stack with
  | [] => none
  | tile :: rest =>
    if st.deep_count < max_deep_dives then
      let key := tile_key tile.1 tile.2.1 tile.2.2
      if key ∈ st.processed then
        some { st with high_density_stack := rest }
      else
        let st1 := { st with
          high_density_stack := rest,
          processed := insert key st.processed }
        let adjusted_radius := R tile.1 tile.2.2
        some (process_tile (q tile.1 tile.2.1 adjusted_radius) min_step chunk_size tile st1)
    else none

/-- Iterating the deep-dive loop at most `n` times, stopping early once
the loop guard fails. -/
def deep_dive_run (R : ℚ → ℚ → ℚ) (q : ℚ → ℚ → ℚ → List Place × ℕ × ℕ)
    (min_step : ℚ) (max_deep_dives chunk_size : ℕ) :
    ℕ → SearchState → SearchState
  | 0, st => st
  | n + 1, st =>
    match deep_dive_step R q min_step max_deep_dives chunk_size st with
    | none => st
    | some st' => deep_dive_run R q min_step max_deep_dives chunk_size n st'

/-- Termination measure: the size of the full 4-ary subdivision tree a
tile of side `s` can still generate before its side sinks to
`min_step`. -/
def subdivision_weight (min_step s : ℚ) : ℕ :=
  if h : 0 < min_step ∧ min_step < s then 1 + 4 * subdivision_weight min_step (s / 2)
  else 1
termination_by (⌈s / min_step⌉).toNat
decreasing_by
  obtain ⟨hm, hs⟩ := h
  have hx : (1 : ℚ) < s / min_step := (one_lt_div hm).mpr hs
  have hc2 : (2 : ℤ) ≤ ⌈s / min_step⌉ := by
    have h1 : (1 : ℤ) < ⌈s / min_step⌉ := by
      rw [Int.lt_ceil]
      exact_mod_cast hx
    omega
  have hhalf : ⌈s / 2 / min_step⌉ ≤ ⌈s / min_step⌉ - 1 := by
    have h1 : s / 2 / min_step = s / min_step / 2 := by ring
    rw [h1, Int.ceil_le]
    have hle : s / min_step ≤ (⌈s / min_step⌉ : ℚ) := Int.le_ceil _
    have hc2q : (2 : ℚ) ≤ (⌈s / min_step⌉ : ℚ) := by exact_mod_cast hc2
    push_cast
    linarith
  omega

/-- The total weight of a stack of tiles. -/
def stack_weight (min_step : ℚ) (stack : List Tile) : ℕ :=
  (stack.map fun t => subdivision_weight min_step t.2.2).sum

/-! ## The query client `get_nearby_places` (`core/places.py`) -/

/-- Outcome of one HTTP attempt inside `get_nearby_places`:
a page of results with or without a `next_page_token`, a non-OK status
(`OVER_QUERY_LIMIT` or another), or a raised exception
(e.g. `raise_for_status` on a transport error). -/
inductive PageResponse where
  | okPage (results : List Place) (next_token : Bool)
  | nonOk (over_query_limit : Bool)
  | httpError
deriving DecidableEq, Repr

/-- What the Python function returns: the success path returns the
3-tuple `(places, len(places), page_count)`; the `except` path returns
the 2-tuple `([], 0)`. -/
inductive NearbyReturn where
  | triple (places : List Place) (count : ℕ) (pages : ℕ)
  | pair (places : List Place) (count : ℕ)
deriving DecidableEq, Repr

/-- The `for _ in range(MAX_PAGES)` loop of `get_nearby_places`
(`core/places.py` lines 135-217): `fuel` is the number of remaining
loop iterations, `k` indexes the successive HTTP attempts, `places` and
`page_count` accumulate.  `OVER_QUERY_LIMIT` sleeps and `continue`s,
any other non-OK status `break`s, an exception aborts the `try` block
and returns the 2-tuple `([], 0)`. -/
def get_nearby_places_loop (resp : ℕ → PageResponse) :
    ℕ → ℕ → List Place → ℕ → NearbyReturn
  | 0, _, places, page_count => NearbyReturn.triple places places.length page_count
  | fuel + 1, k, places, page_count =>
    match resp k with
    | PageResponse.httpError => NearbyReturn.pair [] 0
    | PageResponse.nonOk over =>
      if over then get_nearby_places_loop resp fuel (k + 1) places page_count
      else NearbyReturn.triple places places.length page_count
    | PageResponse.okPage results tok =>
      let places' := places ++ results
      let page_count' := page_count + 1
      if tok then get_nearby_places_loop resp fuel (k + 1) places' page_count'
      else NearbyReturn.triple places' places'.length page_count'

/-- `MAX_PAGES` from `adaptive_search/config.py` (default 3). -/
def MAX_PAGES : ℕ := 3

/-- `MAX_RESULTS_PER_PAGE` from `adaptive_search/config.py`
(default 20). -/
def MAX_RESULTS_PER_PAGE : ℕ := 20

/-- Embedding of `get_nearby_places`, parameterized by the outcome of
each HTTP attempt. -/
def get_nearby_places (resp : ℕ → PageResponse) : NearbyReturn :=
  get_nearby_places_loop resp MAX_PAGES 0 [] 0

/-- The controller's 3-way tuple unpacking
`places, count, pages = get_nearby_places(...)`
(`search.py` lines 182 and 349): unpacking the 2-tuple error return
raises `ValueError`. -/
def controller_unpack : NearbyReturn → Except String (List Place × ℕ × ℕ)
  | NearbyReturn.triple p c g => Except.ok (p, c, g)
  | NearbyReturn.pair _ _ => Except.error "ValueError"

/-! ## Checkpoints (`utils/checkpoint.py`) -/

/-- Python's `str.lower()` on the ASCII city names used as checkpoint
identities. -/
def pyLower (s : String) : String := String.mk (s.data.map Char.toLower)

/-- The dict `state_data` pickled by `save_search_state`. -/
structure SavedState where
  timestamp : ℕ
  city : String
  initial_tiles : List Tile
  high_density_stack : List Tile
  processed : Finset String
  seen_place_ids : Finset String
  deep_count : ℕ
  version : String

/-- The file system as an association list from path to decoded
snapshot; writing prepends, reading takes the first match (atomic
`os.replace` semantics). -/
abbrev FileSystem := List (String × SavedState)

/-- The path written by `save_comprehensive_checkpoint`
(`checkpoint.py` line 63): directory `data/checkpoints/`, lowercased
city, and the module-load datestamp `ts`. -/
def checkpoint_save_path (city ts : String) : String :=
  "data/checkpoints/checkpoint_" ++ pyLower city ++ "_" ++ ts ++ ".ckpt"

/-- The path read by `load_search_state` (`checkpoint.py` line 118):
current directory, lowercased city, optional `date_tag`
(default `""`). -/
def checkpoint_load_path (city date_tag : String) : String :=
  "checkpoint_" ++ pyLower city ++ date_tag ++ ".ckpt"

/-- Embedding of `save_comprehensive_checkpoint`: serialize to a
temporary file and atomically rename onto the dated checkpoint path —
in the file-system model, one insertion at the save path. -/
def save_comprehensive_checkpoint (ts city : String) (state_data : SavedState)
    (fs : FileSystem) : FileSystem :=
  (checkpoint_save_path city ts, state_data) :: fs

/-- The snapshot dict built by `save_search_state`
(`checkpoint.py` lines 100-109), version field `"1.0.1"`. -/
def search_state_snapshot (now : ℕ) (city : String)
    (initial_tiles high_density_stack : List Tile)
    (processed seen_place_ids : Finset String) (deep_count : ℕ) : SavedState :=
  { timestamp := now
    city := city
    initial_tiles := initial_tiles
    high_density_stack := high_density_stack
    processed := processed
    seen_place_ids := seen_place_ids
    deep_count := deep_count
    version := "1.0.1" }

/-- Embedding of `save_search_state` (`checkpoint.py` lines 91-111). -/
def save_search_state (ts : String) (now : ℕ) (city : String)
    (initial_tiles high_density_stack : List Tile)
    (processed seen_place_ids : Finset String) (deep_count : ℕ)
    (fs : FileSystem) : FileSystem :=
  save_comprehensive_checkpoint ts city
    (search_state_snapshot now city initial_tiles high_density_stack processed
      seen_place_ids deep_count) fs

/-- Embedding of `load_search_state` (`checkpoint.py` lines 116-148):
return the snapshot found at the (undated, current-directory) load
path, or `none`; whatever `pickle.load` yields is returned as is, with
no inspection of the `version` field. -/
def load_search_state (fs : FileSystem) (city date_tag : String) : Option SavedState :=
  fs.lookup (checkpoint_load_path city date_tag)

/-- A syntactically valid snapshot carrying a version string the code
base never produced. -/
def unknown_version_snapshot : SavedState :=
  { timestamp := 0
    city := "Dublin"
    initial_tiles := []
    high_density_stack := []
    processed := ∅
    seen_place_ids := ∅
    deep_count := 7
    version := "9.9.9" }

/-! ## Theorems -/

/-- C3: for every tile with positive side, `subdivide_tile` returns
exactly four pairwise-distinct tiles in the order SW, SE, NW, NE, each
of side `s / 2`, centered at the four combinations `lat ± s/4`,
`lng ± s/4`; the children's centers are symmetric about the parent's
center (the point reflection of each child center is again a child
center).  The parent tile is unchanged (subdivision is a pure function
of an immutable tuple). -/
theorem subdivide_tile_spec (lat lng size : ℚ) (h : 0 < size) :
    subdivide_tile (lat, lng, size) =
      [ (lat - size / 4, lng - size / 4, size / 2),
        (lat - size / 4, lng + size / 4, size / 2),
        (lat + size / 4, lng - size / 4, size / 2),
        (lat + size / 4, lng + size / 4, size / 2) ] ∧
    (subdivide_tile (lat, lng, size)).length = 4 ∧
    (subdivide_tile (lat, lng, size)).Nodup ∧
    (∀ t ∈ subdivide_tile (lat, lng, size), t.side = size / 2) ∧
    (∀ t ∈ subdivide_tile (lat, lng, size),
      (2 * lat - t.1, 2 * lng - t.2.1, t.2.2) ∈ subdivide_tile (lat, lng, size)) ∧
    lat - size / 4 < lat ∧ lat < lat + size / 4 ∧
    lng - size / 4 < lng ∧ lng < lng + size / 4 := by
  have e : size / 2 / 2 = size / 4 := by ring
  have hmain : subdivide_tile (lat, lng, size) =
      [ (lat - size / 4, lng - size / 4, size / 2),
        (lat - size / 4, lng + size / 4, size / 2),
        (lat + size / 4, lng - size / 4, size / 2),
        (lat + size / 4, lng + size / 4, size / 2) ] := by
    simp only [subdivide_tile]
    rw [e]
  refine ⟨hmain, ?_, ?_, ?_, ?_, ?_, ?_, ?_, ?_⟩
  · rw [hmain]
    rfl
  · rw [hmain]
    have k1 : ((lat - size / 4, lng - size / 4, size / 2) : Tile) ∉
        [ ((lat - size / 4, lng + size / 4, size / 2) : Tile),
          (lat + size / 4, lng - size / 4, size / 2),
          (lat + size / 4, lng + size / 4, size / 2) ] := by
      simp only [List.mem_cons, List.not_mem_nil, or_false, Prod.mk.injEq, not_or]
      refine ⟨?_, ?_, ?_⟩ <;> rintro ⟨h1, h2, -⟩ <;> linarith
    have k2 : ((lat - size / 4, lng + size / 4, size / 2) : Tile) ∉
        [ ((lat + size / 4, lng - size / 4, size / 2) : Tile),
          (lat + size / 4, lng + size / 4, size / 2) ] := by
      simp only [List.mem_cons, List.not_mem_nil, or_false, Prod.mk.injEq, not_or]
      refine ⟨?_, ?_⟩ <;> rintro ⟨h1, h2, -⟩ <;> linarith
    have k3 : ((lat + size / 4, lng - size / 4, size / 2) : Tile) ∉
        [ ((lat + size / 4, lng + size / 4, size / 2) : Tile) ] := by
      simp only [List.mem_cons, List.not_mem_nil, or_false, Prod.mk.injEq, not_or]
      rintro ⟨h1, h2, -⟩
      linarith
    exact List.nodup_cons.mpr ⟨k1, List.nodup_cons.mpr ⟨k2,
      List.nodup_cons.mpr ⟨k3, List.nodup_singleton _⟩⟩⟩
  · intro t ht
    rw [hmain] at ht
    simp only [List.mem_cons, List.not_mem_nil, or_false] at ht
    rcases ht with rfl | rfl | rfl | rfl <;> rfl
  · intro t ht
    rw [hmain] at ht ⊢
    simp only [List.mem_cons, List.not_mem_nil, or_false, Prod.mk.injEq] at ht ⊢
    rcases ht with rfl | rfl | rfl | rfl
    · exact Or.inr (Or.inr (Or.inr ⟨by ring, by ring, rfl⟩))
    · exact Or.inr (Or.inr (Or.inl ⟨by ring, by ring, rfl⟩))
    · exact Or.inr (Or.inl ⟨by ring, by ring, rfl⟩)
    · exact Or.inl ⟨by ring, by ring, rfl⟩
  · linarith
  · linarith
  · linarith
  · linarith

/-- Witness for `subdivide_tile_spec` at the concrete tile
`(10, 20, 1)`. -/
theorem subdivide_tile_spec_witness :
    (0 : ℚ) < 1 ∧
    (subdivide_tile ((10 : ℚ), (20 : ℚ), (1 : ℚ))).length = 4 :=
  ⟨by norm_num, (subdivide_tile_spec 10 20 1 (by norm_num)).2.1⟩

/-- Evaluation helper: `formatFixed6` on a nonnegative value, given the
rounded scaled magnitude. -/
theorem formatFixed6_eval (x : ℚ) (n : ℤ) (hx : ¬ x < 0)
    (h : roundHalfEven (|x| * 1000000) = n) :
    formatFixed6 x = "" ++ toString (n / 1000000) ++ "." ++ sixDigits (n % 1000000) := by
  simp only [formatFixed6, if_neg hx, h]

/-- The value `0.0000002` formats to six decimal places as
`0.000000`. -/
theorem formatFixed6_2e7 : formatFixed6 (2 / 10000000) = "0.000000" := by
  rw [formatFixed6_eval (2 / 10000000) 0 (by norm_num) ?_]
  · rfl
  · have habs : |(2 / 10000000 : ℚ)| * 1000000 = 1 / 5 := by
      rw [abs_of_nonneg (by norm_num)]
      norm_num
    rw [habs]
    simp only [roundHalfEven]
    norm_num

/-- The value `0.0000003` formats to six decimal places as
`0.000000`. -/
theorem formatFixed6_3e7 : formatFixed6 (3 / 10000000) = "0.000000" := by
  rw [formatFixed6_eval (3 / 10000000) 0 (by norm_num) ?_]
  · rfl
  · have habs : |(3 / 10000000 : ℚ)| * 1000000 = 3 / 10 := by
      rw [abs_of_nonneg (by norm_num)]
      norm_num
    rw [habs]
    simp only [roundHalfEven]
    norm_num

/-- The value `0.0000008` formats to six decimal places as
`0.000001`. -/
theorem formatFixed6_8e7 : formatFixed6 (8 / 10000000) = "0.000001" := by
  rw [formatFixed6_eval (8 / 10000000) 1 (by norm_num) ?_]
  · rfl
  · have habs : |(8 / 10000000 : ℚ)| * 1000000 = 4 / 5 := by
      rw [abs_of_nonneg (by norm_num)]
      norm_num
    rw [habs]
    simp only [roundHalfEven]
    norm_num

/-- The value `0.0025` (the `MIN_STEP` default) formats to six decimal
places as `0.002500`. -/
theorem formatFixed6_min_step : formatFixed6 (1 / 400) = "0.002500" := by
  rw [formatFixed6_eval (1 / 400) 2500 (by norm_num) ?_]
  · rfl
  · have habs : |(1 / 400 : ℚ)| * 1000000 = 2500 := by
      rw [abs_of_nonneg (by norm_num)]
      norm_num
    rw [habs]
    simp only [roundHalfEven]
    norm_num

/-- Zero formats to six decimal places as `0.000000`. -/
theorem formatFixed6_zero : formatFixed6 0 = "0.000000" := by
  rw [formatFixed6_eval 0 0 (by norm_num) ?_]
  · rfl
  · norm_num [roundHalfEven]

/-- C10 counterexample: the tiles `(0.0000002, 0, 0.0025)` and
`(0.0000008, 0, 0.0025)` agree field-by-field to within `1e-6`
(the latitudes differ by `6e-7`), yet their keys differ, because the
latitudes straddle the rounding boundary of the sixth decimal place.
This refutes the claim that fields equal to within `1e-6` always
produce equal keys. -/
theorem tile_key_within_1e6_counterexample :
    |(2 / 10000000 : ℚ) - 8 / 10000000| < 1 / 1000000 ∧
    tile_key (2 / 10000000) 0 (1 / 400) ≠ tile_key (8 / 10000000) 0 (1 / 400) := by
  constructor
  · rw [abs_sub_lt_iff]
    norm_num
  · unfold tile_key
    rw [formatFixed6_2e7, formatFixed6_8e7, formatFixed6_zero, formatFixed6_min_step]
    decide

/-- C10 as amended: the tile key is a deterministic function of the
6-decimal-place renderings of the three fields — whenever the three
fields of two tiles format to the same 6-decimal strings, the keys are
equal (in particular, equal tiles always yield equal keys).  Mere
closeness within `1e-6` is not sufficient
(`tile_key_within_1e6_counterexample`). -/
theorem tile_key_deterministic (lat₁ lng₁ size₁ lat₂ lng₂ size₂ : ℚ)
    (hlat : formatFixed6 lat₁ = formatFixed6 lat₂)
    (hlng : formatFixed6 lng₁ = formatFixed6 lng₂)
    (hsize : formatFixed6 size₁ = formatFixed6 size₂) :
    tile_key lat₁ lng₁ size₁ = tile_key lat₂ lng₂ size₂ := by
  unfold tile_key
  rw [hlat, hlng, hsize]

/-- Witness for `tile_key_deterministic`: `0.0000002` and `0.0000003`
both format to `0.000000`, so the corresponding keys agree. -/
theorem tile_key_deterministic_witness :
    formatFixed6 (2 / 10000000) = formatFixed6 (3 / 10000000) ∧
    tile_key (2 / 10000000) 0 (1 / 400) = tile_key (3 / 10000000) 0 (1 / 400) :=
  ⟨by rw [formatFixed6_2e7, formatFixed6_3e7],
    tile_key_deterministic _ _ _ _ _ _
      (by rw [formatFixed6_2e7, formatFixed6_3e7]) rfl rfl⟩

/-- One step of the `add_unique_row_to_final_list` fold. -/
theorem add_unique_cons (st : SearchState) (p : Place) (rest : List Place) :
    add_unique_row_to_final_list st (p :: rest) =
      add_unique_row_to_final_list
        (if p.place_id ∈ st.seen_place_ids then st
         else
          { st with
            chunk_buffer := st.chunk_buffer ++ [p],
            seen_place_ids := insert p.place_id st.seen_place_ids,
            new_places := st.new_places + 1 }) rest := rfl

/-- One step of the `deep_dive_filter` fold. -/
theorem deep_dive_filter_cons (st : SearchState) (p : Place) (rest : List Place) :
    deep_dive_filter st (p :: rest) =
      deep_dive_filter
        (if p.place_id ∈ st.seen_place_ids then st
         else
          { st with
            seen_place_ids := insert p.place_id st.seen_place_ids,
            chunk_buffer := st.chunk_buffer ++ [p] }) rest := rfl

/-- `flush_chunk` touches only the buffer and the flushed chunks. -/
theorem flush_chunk_fields (st : SearchState) :
    (flush_chunk st).initial_tiles = st.initial_tiles ∧
    (flush_chunk st).high_density_stack = st.high_density_stack ∧
    (flush_chunk st).processed = st.processed ∧
    (flush_chunk st).seen_place_ids = st.seen_place_ids ∧
    (flush_chunk st).new_places = st.new_places ∧
    (flush_chunk st).deep_count = st.deep_count := by
  unfold flush_chunk
  split <;> simp

/-- `deep_dive_filter` only extends the buffer and the ledger; every
other field is unchanged. -/
theorem deep_dive_filter_spec (places : List Place) : ∀ st : SearchState,
    (deep_dive_filter st places).initial_tiles = st.initial_tiles ∧
    (deep_dive_filter st places).high_density_stack = st.high_density_stack ∧
    (deep_dive_filter st places).processed = st.processed ∧
    (deep_dive_filter st places).new_places = st.new_places ∧
    (deep_dive_filter st places).deep_count = st.deep_count ∧
    (deep_dive_filter st places).flushed = st.flushed ∧
    ∃ ext : List Place, (deep_dive_filter st places).chunk_buffer = st.chunk_buffer ++ ext := by
  induction places with
  | nil =>
    intro st
    refine ⟨rfl, rfl, rfl, rfl, rfl, rfl, [], by simp [deep_dive_filter]⟩
  | cons p rest ih =>
    intro st
    rw [deep_dive_filter_cons]
    by_cases hp : p.place_id ∈ st.seen_place_ids
    · rw [if_pos hp]
      exact ih st
    · rw [if_neg hp]
      obtain ⟨h1, h2, h3, h4, h5, h6, ext, hext⟩ :=
        ih { st with
          seen_place_ids := insert p.place_id st.seen_place_ids,
          chunk_buffer := st.chunk_buffer ++ [p] }
      exact ⟨h1, h2, h3, h4, h5, h6, [p] ++ ext, by rw [hext]; simp⟩

/-- `add_unique_row_to_final_list` extends the buffer and the counter
in lockstep and leaves every other control field unchanged. -/
theorem add_unique_spec (places : List Place) : ∀ st : SearchState,
    (add_unique_row_to_final_list st places).initial_tiles = st.initial_tiles ∧
    (add_unique_row_to_final_list st places).high_density_stack = st.high_density_stack ∧
    (add_unique_row_to_final_list st places).processed = st.processed ∧
    (add_unique_row_to_final_list st places).deep_count = st.deep_count ∧
    (add_unique_row_to_final_list st places).flushed = st.flushed ∧
    ∃ ext : List Place,
      (add_unique_row_to_final_list st places).chunk_buffer = st.chunk_buffer ++ ext ∧
      (add_unique_row_to_final_list st places).new_places = st.new_places + ext.length := by
  induction places with
  | nil =>
    intro st
    exact ⟨rfl, rfl, rfl, rfl, rfl, [], by simp [add_unique_row_to_final_list], rfl⟩
  | cons p rest ih =>
    intro st
    rw [add_unique_cons]
    by_cases hp : p.place_id ∈ st.seen_place_ids
    · rw [if_pos hp]
      exact ih st
    · rw [if_neg hp]
      obtain ⟨h1, h2, h3, h4, h5, ext, hext, hnew⟩ :=
        ih { st with
          chunk_buffer := st.chunk_buffer ++ [p],
          seen_place_ids := insert p.place_id st.seen_place_ids,
          new_places := st.new_places + 1 }
      refine ⟨h1, h2, h3, h4, h5, [p] ++ ext, by rw [hext]; simp, ?_⟩
      rw [hnew]
      simp
      omega

/-- After `add_unique_row_to_final_list` the ledger is the old ledger
together with all ids of the input records. -/
theorem add_unique_seen (places : List Place) : ∀ st : SearchState,
    (add_unique_row_to_final_list st places).seen_place_ids =
      st.seen_place_ids ∪ (places.map Place.place_id).toFinset := by
  induction places with
  | nil =>
    intro st
    simp [add_unique_row_to_final_list]
  | cons p rest ih =>
    intro st
    rw [add_unique_cons]
    by_cases hp : p.place_id ∈ st.seen_place_ids
    · rw [if_pos hp, ih st]
      ext a
      simp only [List.map_cons, List.toFinset_cons, Finset.mem_union, Finset.mem_insert,
        List.mem_toFinset]
      constructor
      · tauto
      · rintro (h | rfl | h) <;> tauto
    · rw [if_neg hp, ih _]
      ext a
      simp only [List.map_cons, List.toFinset_cons, Finset.mem_union, Finset.mem_insert,
        List.mem_toFinset]
      tauto

/-- The number of records retained by `add_unique_row_to_final_list` is
the number of distinct input ids not already in the ledger. -/
theorem add_unique_card (places : List Place) : ∀ st : SearchState,
    (add_unique_row_to_final_list st places).chunk_buffer.length =
      st.chunk_buffer.length +
        ((places.map Place.place_id).toFinset \ st.seen_place_ids).card := by
  induction places with
  | nil =>
    intro st
    simp [add_unique_row_to_final_list]
  | cons p rest ih =>
    intro st
    rw [add_unique_cons]
    by_cases hp : p.place_id ∈ st.seen_place_ids
    · rw [if_pos hp, ih st]
      congr 2
      rw [List.map_cons, List.toFinset_cons, Finset.insert_sdiff_of_mem _ hp]
    · rw [if_neg hp, ih _]
      simp only [List.map_cons, List.toFinset_cons, List.length_append, List.length_singleton]
      have h1 : (rest.map Place.place_id).toFinset \ insert p.place_id st.seen_place_ids
          = ((rest.map Place.place_id).toFinset \ st.seen_place_ids).erase p.place_id :=
        Finset.sdiff_insert _ _ _
      have h2 : insert p.place_id (rest.map Place.place_id).toFinset \ st.seen_place_ids
          = insert p.place_id ((rest.map Place.place_id).toFinset \ st.seen_place_ids) := by
        ext a
        simp only [Finset.mem_sdiff, Finset.mem_insert]
        constructor
        · rintro ⟨h | h, hn⟩
          · exact Or.inl h
          · exact Or.inr ⟨h, hn⟩
        · rintro (rfl | ⟨h, hn⟩)
          · exact ⟨Or.inl rfl, hp⟩
          · exact ⟨Or.inr h, hn⟩
      rw [h1, h2]
      have h3 : ∀ X : Finset String, (insert p.place_id X).card = (X.erase p.place_id).card + 1 := by
        intro X
        by_cases hx : p.place_id ∈ X
        · rw [Finset.insert_eq_self.mpr hx]
          exact (Finset.card_erase_add_one hx).symm
        · rw [Finset.card_insert_of_not_mem hx, Finset.erase_eq_of_not_mem hx]
      rw [h3]
      omega

/-- Re-filtering records whose ids are all already in the ledger
changes nothing at all. -/
theorem add_unique_all_seen (places : List Place) : ∀ st : SearchState,
    (∀ p ∈ places, p.place_id ∈ st.seen_place_ids) →
    add_unique_row_to_final_list st places = st := by
  induction places with
  | nil =>
    intro st _
    rfl
  | cons p rest ih =>
    intro st hall
    rw [add_unique_cons, if_pos (hall p (by simp))]
    exact ih st fun r hr => hall r (by simp [hr])

/-- The inlined dedup loop of `run_deep_dive` updates the ledger and
the buffer exactly as `add_unique_row_to_final_list` does. -/
theorem deep_dive_filter_agrees (places : List Place) : ∀ st₁ st₂ : SearchState,
    st₁.seen_place_ids = st₂.seen_place_ids →
    st₁.chunk_buffer = st₂.chunk_buffer →
    (deep_dive_filter st₁ places).seen_place_ids =
      (add_unique_row_to_final_list st₂ places).seen_place_ids ∧
    (deep_dive_filter st₁ places).chunk_buffer =
      (add_unique_row_to_final_list st₂ places).chunk_buffer := by
  induction places with
  | nil =>
    intro st₁ st₂ hseen hbuf
    exact ⟨hseen, hbuf⟩
  | cons p rest ih =>
    intro st₁ st₂ hseen hbuf
    rw [deep_dive_filter_cons, add_unique_cons]
    by_cases hp : p.place_id ∈ st₁.seen_place_ids
    · rw [if_pos hp, if_pos (hseen ▸ hp)]
      exact ih st₁ st₂ hseen hbuf
    · rw [if_neg hp, if_neg (hseen ▸ hp)]
      exact ih _ _ (by simp [hseen]) (by simp [hbuf])

/-- C4: the deduplication ledger is idempotent and order-independent.
After one filtering pass the ledger is the old ledger plus all input
ids; the number of retained records is the number of distinct input ids
absent from the ledger (with a fresh ledger: exactly `M` for `M`
distinct ids among `N` inputs); a permutation of the input retains the
same number of records; re-filtering the same records a second time
retains nothing and changes nothing; and the dedup loop inlined in
`run_deep_dive` behaves identically to the method
`add_unique_row_to_final_list`. -/
theorem filter_new_dedup (st : SearchState) (places places' : List Place)
    (hperm : places.Perm places') :
    (add_unique_row_to_final_list st places).seen_place_ids =
      st.seen_place_ids ∪ (places.map Place.place_id).toFinset ∧
    (add_unique_row_to_final_list st places).chunk_buffer.length =
      st.chunk_buffer.length +
        ((places.map Place.place_id).toFinset \ st.seen_place_ids).card ∧
    (add_unique_row_to_final_list st places').chunk_buffer.length =
      (add_unique_row_to_final_list st places).chunk_buffer.length ∧
    add_unique_row_to_final_list (add_unique_row_to_final_list st places) places =
      add_unique_row_to_final_list st places ∧
    (deep_dive_filter st places).seen_place_ids =
      (add_unique_row_to_final_list st places).seen_place_ids ∧
    (deep_dive_filter st places).chunk_buffer =
      (add_unique_row_to_final_list st places).chunk_buffer := by
  refine ⟨add_unique_seen places st, add_unique_card places st, ?_, ?_, ?_⟩
  · rw [add_unique_card places st, add_unique_card places' st,
      List.toFinset_eq_of_perm _ _ (hperm.map Place.place_id)]
  · apply add_unique_all_seen
    intro p hp
    rw [add_unique_seen places st]
    apply Finset.mem_union_right
    rw [List.mem_toFinset]
    exact List.mem_map_of_mem Place.place_id hp
  · exact deep_dive_filter_agrees places st st rfl rfl

/-- Witness for `filter_new_dedup`: filtering the two distinct records
`a`, `b` into a fresh ledger, against the swapped input order. -/
theorem filter_new_dedup_witness :
    ([Place.mk "a" "x", Place.mk "b" "y"].Perm [Place.mk "b" "y", Place.mk "a" "x"]) ∧
    (add_unique_row_to_final_list initial_search_state
        [Place.mk "a" "x", Place.mk "b" "y"]).seen_place_ids =
      initial_search_state.seen_place_ids ∪
        (([Place.mk "a" "x", Place.mk "b" "y"].map Place.place_id).toFinset) :=
  ⟨List.Perm.swap (Place.mk "b" "y") (Place.mk "a" "x") [],
    (filter_new_dedup initial_search_state _ _
      (List.Perm.swap (Place.mk "b" "y") (Place.mk "a" "x") [])).1⟩

/-- The length of `pushAll`. -/
theorem pushAll_length (children : List Tile) : ∀ stack : List Tile,
    (pushAll children stack).length = children.length + stack.length := by
  induction children with
  | nil =>
    intro stack
    simp [pushAll]
  | cons c rest ih =>
    intro stack
    show (pushAll rest (c :: stack)).length = _
    rw [ih (c :: stack)]
    simp
    omega

/-- The stack produced by `process_tile`: the subdivision children are
pushed exactly when the saturation condition and the resolution-floor
guard both hold. -/
theorem process_tile_stack (res : List Place × ℕ × ℕ) (min_step : ℚ)
    (chunk_size : ℕ) (tile : Tile) (st1 : SearchState) :
    (process_tile res min_step chunk_size tile st1).high_density_stack =
      if min_step < tile.2.2 ∧ res.2.2 = 3 ∧ res.2.1 = 60 then
        pushAll (subdivide_tile tile) st1.high_density_stack
      else st1.high_density_stack := by
  have hinner :
      (if chunk_size ≤ (deep_dive_filter { st1 with deep_count := st1.deep_count + 1 }
            res.1).chunk_buffer.length then
          flush_chunk (deep_dive_filter { st1 with deep_count := st1.deep_count + 1 } res.1)
        else
          deep_dive_filter { st1 with deep_count := st1.deep_count + 1 } res.1
        ).high_density_stack = st1.high_density_stack := by
    have hf := (deep_dive_filter_spec res.1
      { st1 with deep_count := st1.deep_count + 1 }).2.1
    split
    · rw [(flush_chunk_fields _).2.1, hf]
    · rw [hf]
  simp only [process_tile]
  split
  · simpa using congrArg (pushAll (subdivide_tile tile)) hinner
  · exact hinner

/-- Reduction of `deep_dive_step` on a popped tile that is not yet
processed. -/
theorem deep_dive_step_process (R : ℚ → ℚ → ℚ)
    (q : ℚ → ℚ → ℚ → List Place × ℕ × ℕ) (min_step : ℚ)
    (maxD chunk : ℕ) (st : SearchState) (tile : Tile) (rest : List Tile)
    (hstack : st.high_density_stack = tile :: rest)
    (hdeep : st.deep_count < maxD)
    (hkey : tile_key tile.1 tile.2.1 tile.2.2 ∉ st.processed) :
    deep_dive_step R q min_step maxD chunk st =
      some (process_tile (q tile.1 tile.2.1 (R tile.1 tile.2.2)) min_step chunk tile
        { st with
          high_density_stack := rest,
          processed := insert (tile_key tile.1 tile.2.1 tile.2.2) st.processed }) := by
  simp only [deep_dive_step, hstack, if_pos hdeep, if_neg hkey]

/-- Reduction of `deep_dive_step` on a popped tile whose key is already
processed: the tile is discarded. -/
theorem deep_dive_step_skip (R : ℚ → ℚ → ℚ)
    (q : ℚ → ℚ → ℚ → List Place × ℕ × ℕ) (min_step : ℚ)
    (maxD chunk : ℕ) (st : SearchState) (tile : Tile) (rest : List Tile)
    (hstack : st.high_density_stack = tile :: rest)
    (hdeep : st.deep_count < maxD)
    (hkey : tile_key tile.1 tile.2.1 tile.2.2 ∈ st.processed) :
    deep_dive_step R q min_step maxD chunk st =
      some { st with high_density_stack := rest } := by
  simp only [deep_dive_step, hstack, if_pos hdeep, if_pos hkey]

/-- C1: a tile is classified saturated exactly when the query consumed
`pages = 3` pages and returned `count = 60 = 3 · 20` aggregate results.
In the initial scan, `check_tile_density` pushes the tile onto the
high-density stack iff `pages = 3 ∧ count = 60`; with `pages ≠ 3` or
`count ≠ 60` — in particular `count = 59` — the state is unchanged.  In
the deep dive, a popped unprocessed tile leads to a subdivision push
iff the same saturation condition holds together with the
resolution-floor guard `min_step < side`. -/
theorem saturation_classification :
    (∀ (pages count : ℕ) (lat lng size : ℚ) (st : SearchState),
      check_tile_density pages lat lng size count st =
          { st with high_density_stack := (lat, lng, size) :: st.high_density_stack }
        ↔ (pages = 3 ∧ count = 60)) ∧
    (∀ (pages count : ℕ) (lat lng size : ℚ) (st : SearchState),
      pages ≠ 3 ∨ count ≠ 60 →
      check_tile_density pages lat lng size count st = st) ∧
    (∀ (pages : ℕ) (lat lng size : ℚ) (st : SearchState),
      check_tile_density pages lat lng size 59 st = st) ∧
    (∀ (R : ℚ → ℚ → ℚ) (q : ℚ → ℚ → ℚ → List Place × ℕ × ℕ) (min_step : ℚ)
      (maxD chunk : ℕ) (st : SearchState) (tile : Tile) (rest : List Tile)
      (places : List Place) (count pages : ℕ),
      st.high_density_stack = tile :: rest →
      st.deep_count < maxD →
      tile_key tile.1 tile.2.1 tile.2.2 ∉ st.processed →
      q tile.1 tile.2.1 (R tile.1 tile.2.2) = (places, count, pages) →
      ∃ st', deep_dive_step R q min_step maxD chunk st = some st' ∧
        (st'.high_density_stack = pushAll (subdivide_tile tile) rest
          ↔ (min_step < tile.2.2 ∧ pages = 3 ∧ count = 60))) := by
  refine ⟨?_, ?_, ?_, ?_⟩
  · intro pages count lat lng size st
    unfold check_tile_density
    by_cases hcond : pages = 3 ∧ count = 60
    · rw [if_pos hcond]
      simp [hcond]
    · rw [if_neg hcond]
      constructor
      · intro heq
        exfalso
        have hh := congrArg SearchState.high_density_stack heq
        simp only at hh
        exact List.cons_ne_self _ _ hh.symm
      · intro hcond2
        exact absurd hcond2 hcond
  · intro pages count lat lng size st hne
    unfold check_tile_density
    rw [if_neg]
    rintro ⟨h3, h60⟩
    rcases hne with hne | hne <;> [exact hne h3; exact hne h60]
  · intro pages lat lng size st
    unfold check_tile_density
    rw [if_neg]
    rintro ⟨-, h60⟩
    exact absurd h60 (by norm_num)
  · intro R q min_step maxD chunk st tile rest places count pages hstack hdeep hkey hq
    refine ⟨_, deep_dive_step_process R q min_step maxD chunk st tile rest hstack hdeep hkey, ?_⟩
    rw [process_tile_stack, hq]
    simp only
    by_cases hcond : min_step < tile.2.2 ∧ pages = 3 ∧ count = 60
    · rw [if_pos hcond]
      simp [hcond]
    · rw [if_neg hcond]
      constructor
      · intro heq
        exfalso
        have hlen := congrArg List.length heq
        rw [pushAll_length] at hlen
        simp [subdivide_tile] at hlen
      · intro hcond2
        exact absurd hcond2 hcond

/-- Witness for `saturation_classification`: a concrete deep-dive state
holding the single unprocessed tile `(0, 0, 1)` with a query client
reporting `pages = 3`, `count = 60`; the boundary instance
`check_tile_density` at `pages = 3`, `count = 60` pushes. -/
theorem saturation_classification_witness :
    ((3 : ℕ) = 3 ∧ (60 : ℕ) = 60) ∧
    check_tile_density 3 0 0 0 60 initial_search_state =
      { initial_search_state with high_density_stack := [(0, 0, 0)] } ∧
    ∃ st', deep_dive_step (fun _ _ => 0) (fun _ _ _ => ([], 60, 3)) 1 1 5
        { initial_search_state with high_density_stack := [((0 : ℚ), (0 : ℚ), (1 : ℚ))] } =
        some st' ∧
      (st'.high_density_stack = pushAll (subdivide_tile ((0 : ℚ), (0 : ℚ), (1 : ℚ))) []
        ↔ ((1 : ℚ) < (1 : ℚ) ∧ (3 : ℕ) = 3 ∧ (60 : ℕ) = 60)) := by
  refine ⟨⟨rfl, rfl⟩, ?_, ?_⟩
  · exact (saturation_classification.1 3 60 0 0 0 initial_search_state).mpr ⟨rfl, rfl⟩
  · exact saturation_classification.2.2.2 (fun _ _ => 0) (fun _ _ _ => ([], 60, 3)) 1 1 5
      _ ((0 : ℚ), (0 : ℚ), (1 : ℚ)) [] [] 60 3 rfl
      (by simp [initial_search_state]) (by simp [initial_search_state]) rfl

/-- Every tile weighs at least 1. -/
theorem subdivision_weight_pos (min_step s : ℚ) : 1 ≤ subdivision_weight min_step s := by
  unfold subdivision_weight
  split <;> omega

/-- Above the resolution floor the weight satisfies the subdivision
recurrence. -/
theorem subdivision_weight_halve (min_step s : ℚ) (hm : 0 < min_step) (hs : min_step < s) :
    subdivision_weight min_step s = 1 + 4 * subdivision_weight min_step (s / 2) := by
  conv_lhs => rw [subdivision_weight]
  rw [dif_pos ⟨hm, hs⟩]

/-- Weight of a pushed stack. -/
theorem stack_weight_cons (min_step : ℚ) (t : Tile) (l : List Tile) :
    stack_weight min_step (t :: l) =
      subdivision_weight min_step t.2.2 + stack_weight min_step l := by
  simp [stack_weight]

/-- `pushAll` adds the weights of the pushed tiles. -/
theorem stack_weight_pushAll (min_step : ℚ) (children : List Tile) :
    ∀ stack : List Tile,
    stack_weight min_step (pushAll children stack) =
      stack_weight min_step children + stack_weight min_step stack := by
  induction children with
  | nil =>
    intro stack
    simp [pushAll, stack_weight]
  | cons c rest ih =>
    intro stack
    show stack_weight min_step (pushAll rest (c :: stack)) = _
    rw [ih (c :: stack), stack_weight_cons, stack_weight_cons]
    omega

/-- The four subdivision children of a tile together weigh four times
the weight of the halved side. -/
theorem stack_weight_subdivide (min_step : ℚ) (tile : Tile) :
    stack_weight min_step (subdivide_tile tile) =
      4 * subdivision_weight min_step (tile.2.2 / 2) := by
  simp [subdivide_tile, stack_weight]
  omega

/-- Processing a popped tile strictly reduces the combined weight of
tile and remaining stack. -/
theorem process_tile_weight (res : List Place × ℕ × ℕ) (min_step : ℚ)
    (chunk : ℕ) (tile : Tile) (st1 : SearchState) (hm : 0 < min_step) :
    stack_weight min_step (process_tile res min_step chunk tile st1).high_density_stack <
      subdivision_weight min_step tile.2.2 +
        stack_weight min_step st1.high_density_stack := by
  rw [process_tile_stack]
  split
  · rename_i hcond
    rw [stack_weight_pushAll, stack_weight_subdivide,
      subdivision_weight_halve min_step tile.2.2 hm hcond.1]
    omega
  · have := subdivision_weight_pos min_step tile.2.2
    omega

/-- Every iteration of the deep-dive loop strictly decreases the stack
weight. -/
theorem deep_dive_step_decrease (R : ℚ → ℚ → ℚ)
    (q : ℚ → ℚ → ℚ → List Place × ℕ × ℕ) (min_step : ℚ)
    (maxD chunk : ℕ) (st st' : SearchState) (hm : 0 < min_step)
    (hstep : deep_dive_step R q min_step maxD chunk st = some st') :
    stack_weight min_step st'.high_density_stack <
      stack_weight min_step st.high_density_stack := by
  cases hstack : st.high_density_stack with
  | nil =>
    rw [show deep_dive_step R q min_step maxD chunk st = none from by
      simp [deep_dive_step, hstack]] at hstep
    exact absurd hstep (by simp)
  | cons tile rest =>
    by_cases hdeep : st.deep_count < maxD
    · by_cases hkey : tile_key tile.1 tile.2.1 tile.2.2 ∈ st.processed
      · rw [deep_dive_step_skip R q min_step maxD chunk st tile rest hstack hdeep hkey]
          at hstep
        have hst' := Option.some.inj hstep
        rw [← hst']
        show stack_weight min_step rest < stack_weight min_step (tile :: rest)
        rw [stack_weight_cons]
        have := subdivision_weight_pos min_step tile.2.2
        omega
      · rw [deep_dive_step_process R q min_step maxD chunk st tile rest hstack hdeep hkey]
          at hstep
        have hst' := Option.some.inj hstep
        rw [← hst']
        have hbound := process_tile_weight (q tile.1 tile.2.1 (R tile.1 tile.2.2))
          min_step chunk tile
          { st with
            high_density_stack := rest,
            processed := insert (tile_key tile.1 tile.2.1 tile.2.2) st.processed } hm
        rw [stack_weight_cons]
        exact hbound
    · rw [show deep_dive_step R q min_step maxD chunk st = none from by
        simp [deep_dive_step, hstack, hdeep]] at hstep
      exact absurd hstep (by simp)

/-- Bounded-weight induction: from any state the deep-dive loop reaches
a state where the loop guard fails. -/
theorem deep_dive_run_reaches_none_aux (R : ℚ → ℚ → ℚ)
    (q : ℚ → ℚ → ℚ → List Place × ℕ × ℕ) (min_step : ℚ)
    (maxD chunk : ℕ) (hm : 0 < min_step) :
    ∀ (W : ℕ) (st : SearchState), stack_weight min_step st.high_density_stack ≤ W →
    ∃ n, deep_dive_step R q min_step maxD chunk
      (deep_dive_run R q min_step maxD chunk n st) = none := by
  intro W
  induction W with
  | zero =>
    intro st hW
    cases hstep : deep_dive_step R q min_step maxD chunk st with
    | none => exact ⟨0, hstep⟩
    | some st' =>
      have := deep_dive_step_decrease R q min_step maxD chunk st st' hm hstep
      omega
  | succ W ih =>
    intro st hW
    cases hstep : deep_dive_step R q min_step maxD chunk st with
    | none => exact ⟨0, hstep⟩
    | some st' =>
      have hdec := deep_dive_step_decrease R q min_step maxD chunk st st' hm hstep
      obtain ⟨n, hn⟩ := ih st' (by omega)
      refine ⟨n + 1, ?_⟩
      rw [show deep_dive_run R q min_step maxD chunk (n + 1) st =
        deep_dive_run R q min_step maxD chunk n st' from by
          simp [deep_dive_run, hstep]]
      exact hn

/-- C2: for every finite stack, every query client, every dive ceiling
and every positive `min_step`, the deep-dive loop terminates: after
finitely many iterations the loop guard fails (stack drained or
ceiling reached).  The mechanism is as claimed: each subdivision child
has exactly half the parent's side, and a tile whose side is not
strictly above `min_step` is never subdivided. -/
theorem run_deep_dive_terminates (R : ℚ → ℚ → ℚ)
    (q : ℚ → ℚ → ℚ → List Place × ℕ × ℕ) (min_step : ℚ)
    (maxD chunk : ℕ) (st : SearchState) (hm : 0 < min_step) :
    (∃ n, deep_dive_step R q min_step maxD chunk
      (deep_dive_run R q min_step maxD chunk n st) = none) ∧
    (∀ tile : Tile, ∀ t ∈ subdivide_tile tile, t.2.2 = tile.2.2 / 2) ∧
    (∀ (res : List Place × ℕ × ℕ) (c : ℕ) (tile : Tile) (st1 : SearchState),
      ¬ min_step < tile.2.2 →
      (process_tile res min_step c tile st1).high_density_stack =
        st1.high_density_stack) := by
  refine ⟨deep_dive_run_reaches_none_aux R q min_step maxD chunk hm
    (stack_weight min_step st.high_density_stack) st le_rfl, ?_, ?_⟩
  · intro tile t ht
    simp only [subdivide_tile, List.mem_cons, List.not_mem_nil, or_false] at ht
    rcases ht with rfl | rfl | rfl | rfl <;> rfl
  · intro res c tile st1 hfloor
    rw [process_tile_stack, if_neg]
    rintro ⟨hlt, -⟩
    exact hfloor hlt

/-- Witness for `run_deep_dive_terminates` with `min_step = 1` and the
always-saturated query client, starting from a one-tile stack. -/
theorem run_deep_dive_terminates_witness :
    (0 : ℚ) < 1 ∧
    ∃ n, deep_dive_step (fun _ _ => 0) (fun _ _ _ => ([], 60, 3)) 1 1000 5
      (deep_dive_run (fun _ _ => 0) (fun _ _ _ => ([], 60, 3)) 1 1000 5 n
        { initial_search_state with
          high_density_stack := [((0 : ℚ), (0 : ℚ), (2 : ℚ))] }) = none :=
  ⟨by norm_num,
    (run_deep_dive_terminates (fun _ _ => 0) (fun _ _ _ => ([], 60, 3)) 1 1000 5
      { initial_search_state with
        high_density_stack := [((0 : ℚ), (0 : ℚ), (2 : ℚ))] } (by norm_num)).1⟩

/-- `check_tile_density` touches only the high-density stack. -/
theorem check_tile_density_fields (pages : ℕ) (lat lng size : ℚ) (count : ℕ)
    (st : SearchState) :
    (check_tile_density pages lat lng size count st).chunk_buffer = st.chunk_buffer ∧
    (check_tile_density pages lat lng size count st).new_places = st.new_places ∧
    (check_tile_density pages lat lng size count st).seen_place_ids = st.seen_place_ids ∧
    (check_tile_density pages lat lng size count st).flushed = st.flushed := by
  unfold check_tile_density
  split <;> simp

/-- The chunks flushed by `process_tile`: a new chunk appears exactly
when the post-filter buffer is nonempty and has reached the
threshold. -/
theorem process_tile_flushed (res : List Place × ℕ × ℕ) (min_step : ℚ)
    (chunk : ℕ) (tile : Tile) (st1 : SearchState) :
    (process_tile res min_step chunk tile st1).flushed =
      if chunk ≤ (deep_dive_filter { st1 with deep_count := st1.deep_count + 1 }
            res.1).chunk_buffer.length ∧
          (deep_dive_filter { st1 with deep_count := st1.deep_count + 1 }
            res.1).chunk_buffer ≠ [] then
        st1.flushed ++
          [(deep_dive_filter { st1 with deep_count := st1.deep_count + 1 }
            res.1).chunk_buffer]
      else st1.flushed := by
  have hf6 : (deep_dive_filter { st1 with deep_count := st1.deep_count + 1 }
      res.1).flushed = st1.flushed :=
    (deep_dive_filter_spec res.1 { st1 with deep_count := st1.deep_count + 1 }).2.2.2.2.2.1
  simp only [process_tile]
  set st3 := deep_dive_filter { st1 with deep_count := st1.deep_count + 1 } res.1 with hst3
  have hX : (if chunk ≤ st3.chunk_buffer.length then flush_chunk st3 else st3).flushed =
      (if chunk ≤ st3.chunk_buffer.length ∧ st3.chunk_buffer ≠ [] then
        st1.flushed ++ [st3.chunk_buffer]
      else st1.flushed) := by
    by_cases hlen : chunk ≤ st3.chunk_buffer.length
    · rw [if_pos hlen]
      by_cases hbuf : st3.chunk_buffer = []
      · rw [show flush_chunk st3 = st3 from by simp [flush_chunk, hbuf],
          if_neg (by simp [hbuf]), hf6]
      · rw [if_pos ⟨hlen, hbuf⟩]
        simp [flush_chunk, hbuf, hf6]
    · rw [if_neg hlen, if_neg (by rintro ⟨hh, -⟩; exact hlen hh), hf6]
  by_cases hsat : min_step < tile.2.2 ∧ res.2.2 = 3 ∧ res.2.1 = 60
  · rw [if_pos hsat]
    exact hX
  · rw [if_neg hsat]
    exact hX

/-- C8: a flush is only triggered by an addition that contributed at
least one new record while the buffer reached the threshold.  In the
initial scan, whenever the `check_and_save_chunk_size` guard fires
after an addition, that addition strictly grew the buffer, and an
addition contributing zero new records never triggers a flush; the
inductive invariant `buffer length below threshold (and bounded by
new_places)` is preserved by each `crawl_city` iteration.  In the deep
dive, a step that flushes a chunk always flushes one strictly larger
than the buffer it started from (so the query of that step contributed
new records) and at least as large as the threshold. -/
theorem flush_requires_fresh_records (chunk_size : ℕ) (hc : 0 < chunk_size) :
    (∀ (st : SearchState) (places : List Place),
      st.chunk_buffer.length ≤ st.new_places →
      st.chunk_buffer.length < chunk_size →
      ((0 < (add_unique_row_to_final_list st places).new_places ∧
          chunk_size ≤ (add_unique_row_to_final_list st places).chunk_buffer.length) →
        st.chunk_buffer.length <
          (add_unique_row_to_final_list st places).chunk_buffer.length) ∧
      ((add_unique_row_to_final_list st places).chunk_buffer.length =
          st.chunk_buffer.length →
        check_and_save_chunk_size chunk_size (add_unique_row_to_final_list st places) =
          add_unique_row_to_final_list st places)) ∧
    (∀ (lat lng size : ℚ) (places : List Place) (count pages : ℕ) (st : SearchState),
      st.chunk_buffer.length ≤ st.new_places →
      st.chunk_buffer.length < chunk_size →
      (crawl_city_step chunk_size lat lng size places count pages st).chunk_buffer.length ≤
          (crawl_city_step chunk_size lat lng size places count pages st).new_places ∧
      (crawl_city_step chunk_size lat lng size places count pages st).chunk_buffer.length <
          chunk_size) ∧
    (∀ (R : ℚ → ℚ → ℚ) (q : ℚ → ℚ → ℚ → List Place × ℕ × ℕ) (min_step : ℚ)
      (maxD : ℕ) (st st' : SearchState),
      st.chunk_buffer.length < chunk_size →
      deep_dive_step R q min_step maxD chunk_size st = some st' →
      st'.flushed ≠ st.flushed →
      ∃ batch, st'.flushed = st.flushed ++ [batch] ∧
        st.chunk_buffer.length < batch.length ∧ chunk_size ≤ batch.length) := by
  refine ⟨?_, ?_, ?_⟩
  · intro st places hinv hlt
    obtain ⟨-, -, -, -, -, ext, hbuf, hnew⟩ := add_unique_spec places st
    constructor
    · rintro ⟨-, hge⟩
      rw [hbuf] at hge ⊢
      simp only [List.length_append] at hge ⊢
      omega
    · intro hsame
      unfold check_and_save_chunk_size
      rw [if_neg]
      rintro ⟨-, hge⟩
      rw [hsame] at hge
      omega
  · intro lat lng size places count pages st hinv hlt
    unfold crawl_city_step
    obtain ⟨-, -, -, -, -, ext, hbuf, hnew⟩ := add_unique_spec places st
    set st1 := add_unique_row_to_final_list st places with hst1
    obtain ⟨hb2, hn2, -, -⟩ := check_tile_density_fields pages lat lng size count
      (check_and_save_chunk_size chunk_size st1)
    rw [hb2, hn2]
    unfold check_and_save_chunk_size
    by_cases hguard : 0 < st1.new_places ∧ chunk_size ≤ st1.chunk_buffer.length
    · rw [if_pos hguard]
      have hne : st1.chunk_buffer ≠ [] := by
        intro hnil
        rw [hnil] at hguard
        simp at hguard
        omega
      have hfl : (flush_chunk st1).chunk_buffer = [] ∧
          (flush_chunk st1).new_places = st1.new_places := by
        simp [flush_chunk, hne]
      rw [hfl.1, hfl.2]
      simp
      exact hc
    · rw [if_neg hguard]
      rw [not_and_or] at hguard
      rcases hguard with hz | hlen
      · have hz0 : st1.new_places = 0 := by omega
        rw [hbuf, hnew] at *
        constructor
        · simp only [List.length_append]
          omega
        · simp only [List.length_append]
          omega
      · constructor
        · rw [hbuf, hnew]
          simp only [List.length_append]
          omega
        · omega
  · intro R q min_step maxD st st' hlt hstep hflush
    cases hstack : st.high_density_stack with
    | nil =>
      rw [show deep_dive_step R q min_step maxD chunk_size st = none from by
        simp [deep_dive_step, hstack]] at hstep
      exact absurd hstep (by simp)
    | cons tile rest =>
      by_cases hdeep : st.deep_count < maxD
      · by_cases hkey : tile_key tile.1 tile.2.1 tile.2.2 ∈ st.processed
        · rw [deep_dive_step_skip R q min_step maxD chunk_size st tile rest hstack
            hdeep hkey] at hstep
          have hst' := Option.some.inj hstep
          rw [← hst'] at hflush
          exact absurd rfl hflush
        · rw [deep_dive_step_process R q min_step maxD chunk_size st tile rest hstack
            hdeep hkey] at hstep
          have hst' := Option.some.inj hstep
          rw [← hst'] at hflush ⊢
          rw [process_tile_flushed] at hflush ⊢
          set st1 : SearchState := { st with
            high_density_stack := rest,
            processed := insert (tile_key tile.1 tile.2.1 tile.2.2) st.processed }
            with hst1
          set st3 := deep_dive_filter { st1 with deep_count := st1.deep_count + 1 }
            (q tile.1 tile.2.1 (R tile.1 tile.2.2)).1 with hst3
          by_cases hcond : chunk_size ≤ st3.chunk_buffer.length ∧ st3.chunk_buffer ≠ []
          · rw [if_pos hcond]
            refine ⟨st3.chunk_buffer, rfl, ?_, hcond.1⟩
            omega
          · rw [if_neg hcond] at hflush
            exact absurd rfl hflush
      · rw [show deep_dive_step R q min_step maxD chunk_size st = none from by
          simp [deep_dive_step, hstack, hdeep]] at hstep
        exact absurd hstep (by simp)

/-- Witness for `flush_requires_fresh_records` at threshold 1, on the
fresh state with an empty addition: no flush fires. -/
theorem flush_requires_fresh_records_witness :
    (0 : ℕ) < 1 ∧
    check_and_save_chunk_size 1 (add_unique_row_to_final_list initial_search_state []) =
      add_unique_row_to_final_list initial_search_state [] :=
  ⟨Nat.one_pos,
    ((flush_requires_fresh_records 1 Nat.one_pos).1 initial_search_state []
      (by simp [initial_search_state])
      (by simp [initial_search_state])).2 rfl⟩

/-- C7: when every attempt hits `OVER_QUERY_LIMIT` the retry loop
exhausts and the client returns the clean empty triple
`([], 0, 0)`, which the controller unpacks fine and which never
classifies as saturated.  But on a raised exception (the
non-recoverable error path) the `except` clause returns the 2-tuple
`([], 0)` instead of the documented triple `([], 0, 0)`, and the
controller's 3-way unpacking of that value raises `ValueError`, which
aborts the crawl loop instead of being treated as a silent empty
result. -/
theorem query_failure_semantics :
    get_nearby_places (fun _ => PageResponse.nonOk true) = NearbyReturn.triple [] 0 0 ∧
    controller_unpack (get_nearby_places (fun _ => PageResponse.nonOk true)) =
      Except.ok ([], 0, 0) ∧
    (∀ (lat lng size : ℚ) (st : SearchState),
      check_tile_density 0 lat lng size 0 st = st) ∧
    (∀ resp : ℕ → PageResponse, resp 0 = PageResponse.httpError →
      get_nearby_places resp = NearbyReturn.pair [] 0 ∧
      controller_unpack (get_nearby_places resp) = Except.error "ValueError") := by
  refine ⟨rfl, rfl, ?_, ?_⟩
  · intro lat lng size st
    unfold check_tile_density
    rw [if_neg]
    rintro ⟨h, -⟩
    exact absurd h (by norm_num)
  · intro resp h
    have hrun : get_nearby_places resp = NearbyReturn.pair [] 0 := by
      unfold get_nearby_places MAX_PAGES
      rw [show (3 : ℕ) = 2 + 1 from rfl]
      unfold get_nearby_places_loop
      rw [h]
    exact ⟨hrun, by rw [hrun]; rfl⟩

/-- Witness for `query_failure_semantics`: the constantly failing
transport. -/
theorem query_failure_semantics_witness :
    ((fun _ : ℕ => PageResponse.httpError) 0 = PageResponse.httpError) ∧
    get_nearby_places (fun _ => PageResponse.httpError) = NearbyReturn.pair [] 0 :=
  ⟨rfl, (query_failure_semantics.2.2.2 (fun _ => PageResponse.httpError) rfl).1⟩

/-- The dated save path under `data/checkpoints/` can never coincide
with the undated load path in the working directory: the former starts
with `d`, the latter with `c`. -/
theorem checkpoint_paths_distinct (city ts city' dt : String) :
    checkpoint_save_path city ts ≠ checkpoint_load_path city' dt := by
  intro h
  have hd : (checkpoint_save_path city ts).data.head? =
      (checkpoint_load_path city' dt).data.head? := by rw [h]
  simp only [checkpoint_save_path, checkpoint_load_path, String.data_append] at hd
  simp at hd

/-- C5: a snapshot written by `save_search_state` is stored intact
(every field round-trips, including the stack order) at the dated path
under `data/checkpoints/`, but `load_search_state` reads the undated
path in the working directory, so a save is entirely invisible to every
subsequent load: loading after saving returns exactly what it would
have returned before the save (in particular `none` on a fresh file
system), never the saved state. -/
theorem save_search_state_invisible_to_load :
    (∀ (ts : String) (now : ℕ) (city : String) (tiles stack : List Tile)
      (processed seen : Finset String) (deep : ℕ) (fs : FileSystem)
      (city' dt : String),
      load_search_state
          (save_search_state ts now city tiles stack processed seen deep fs) city' dt =
        load_search_state fs city' dt) ∧
    (∀ (ts : String) (now : ℕ) (city : String) (tiles stack : List Tile)
      (processed seen : Finset String) (deep : ℕ) (fs : FileSystem),
      (save_search_state ts now city tiles stack processed seen deep fs).lookup
          (checkpoint_save_path city ts) =
        some (search_state_snapshot now city tiles stack processed seen deep)) := by
  constructor
  · intro ts now city tiles stack processed seen deep fs city' dt
    unfold load_search_state save_search_state save_comprehensive_checkpoint
    rw [List.lookup]
    rw [beq_false_of_ne (Ne.symm (checkpoint_paths_distinct city ts city' dt))]
  · intro ts now city tiles stack processed seen deep fs
    unfold save_search_state save_comprehensive_checkpoint
    rw [List.lookup]
    simp

/-- C9 counterexample: a snapshot carrying the unknown format version
`9.9.9` placed at the load path is returned by `load_search_state` as
is — the loader neither rejects nor migrates it. -/
theorem load_returns_unknown_version :
    load_search_state [(checkpoint_load_path "Dublin" "", unknown_version_snapshot)]
        "Dublin" "" = some unknown_version_snapshot ∧
    unknown_version_snapshot.version ≠ "1.0.1" := by
  constructor
  · unfold load_search_state
    rw [List.lookup]
    simp
  · decide

/-- C9 as amended: every snapshot built by `save_search_state` does
carry the format version field (`"1.0.1"`), but the loader performs no
version check whatsoever: it returns any snapshot found at the load
path unchanged, whatever its `version` field says. -/
theorem checkpoint_version_unchecked :
    (∀ (now : ℕ) (city : String) (tiles stack : List Tile)
      (processed seen : Finset String) (deep : ℕ),
      (search_state_snapshot now city tiles stack processed seen deep).version =
        "1.0.1") ∧
    (∀ (fs : FileSystem) (city dt : String) (st : SavedState),
      fs.lookup (checkpoint_load_path city dt) = some st →
      load_search_state fs city dt = some st) := by
  constructor
  · intro now city tiles stack processed seen deep
    rfl
  · intro fs city dt st h
    exact h

/-- Witness for `checkpoint_version_unchecked`: the loader passes the
version-`9.9.9` snapshot through unchanged. -/
theorem checkpoint_version_unchecked_witness :
    ([(checkpoint_load_path "Dublin" "", unknown_version_snapshot)].lookup
        (checkpoint_load_path "Dublin" "") = some unknown_version_snapshot) ∧
    load_search_state [(checkpoint_load_path "Dublin" "", unknown_version_snapshot)]
        "Dublin" "" = some unknown_version_snapshot := by
  have hlk : ([(checkpoint_load_path "Dublin" "", unknown_version_snapshot)].lookup
      (checkpoint_load_path "Dublin" "") = some unknown_version_snapshot) := by
    rw [List.lookup]
    simp
  exact ⟨hlk, checkpoint_version_unchecked.2 _ "Dublin" "" _ hlk⟩

/-- C6: the radius function itself computes exactly the claimed
half-diagonal formula, but the deep-dive call site passes it two
positional arguments instead of three, so every non-skipped popped tile
raises `TypeError` instead of being queried at that radius. -/
theorem run_deep_dive_radius_call_type_error :
    (∀ (M : PyMath) (lat lng size : ℚ),
      calculate_search_radius M lat lng size =
        (size / 2) * M.sqrt 2 * ((111111 + 111111 * M.cos (M.radians lat)) / 2)) ∧
    (∀ (M : PyMath) (lat size : ℚ),
      run_deep_dive_radius_call M lat size = Except.error "TypeError") := by
  constructor
  · intro M lat lng size
    rfl
  · intro M lat size
    rfl

end GeoIngest
